import Mathlib

/-!
Verification of the `charm-interface-hacluster` relation adapter
(`requires.py`, class `HAClusterRequires`) against its design
specification.

The development shallowly embeds the Python module:

* `sha1_hexdigest` models `hashlib.sha1(... .encode('UTF-8')).hexdigest()`
  (full SHA-1, byte-level, on Nat arithmetic mod 2^32);
* `CRM` models the resource registry `relations.hacluster.common.CRM`
  (that module is not part of the sources provided, so the registry is
  modelled from the specification, as marked on each definition);
* `RelState` models the unit's relation-local store, the remote relation
  data, and the change-detection cache used by `data_changed`;
* the adapter operations (`bind_on`, `manage_resources`, `bind_resources`,
  `add_vip`, `remove_vip`, `remove_dnsha`, `delete_resource`) are direct
  translations of the corresponding methods of `HAClusterRequires`;
* `ConnState`/`Event`/`step` model the relation lifecycle handlers
  `joined`/`changed`/`departed`;
* `is_clustered`/`get_remote_all` model the clustered-flag reading.
-/

/-! ## SHA-1 (models `hashlib.sha1` used for VIP disambiguator keys) -/

/-- One 32-bit word: values are kept reduced modulo `2^32`. -/
def w32 : Nat := 4294967296

/-- Left rotation of a 32-bit word by `n` bits. -/
def rotl (n x : Nat) : Nat := ((x <<< n) ||| (x >>> (32 - n))) % w32

/-- UTF-8 encoding of a single code point, as in Python `str.encode('UTF-8')`. -/
def encodeUtf8Char (n : Nat) : List Nat :=
  if n < 128 then [n]
  else if n < 2048 then [192 + n / 64, 128 + n % 64]
  else if n < 65536 then [224 + n / 4096, 128 + (n / 64) % 64, 128 + n % 64]
  else [240 + n / 262144, 128 + (n / 4096) % 64, 128 + (n / 64) % 64, 128 + n % 64]

/-- UTF-8 bytes of a string. -/
def utf8Bytes (s : String) : List Nat :=
  s.data.foldr (fun c acc => encodeUtf8Char c.toNat ++ acc) []

/-- Big-endian byte encoding of `v` on `k` bytes. -/
def beBytes : Nat → Nat → List Nat
  | 0, _ => []
  | k + 1, v => beBytes k (v / 256) ++ [v % 256]

/-- SHA-1 message padding: `0x80`, zeros, then the 64-bit bit length. -/
def sha1pad (msg : List Nat) : List Nat :=
  let len := msg.length
  let padZeros := (119 - len % 64) % 64
  msg ++ [128] ++ List.replicate padZeros 0 ++ beBytes 8 (8 * len)

/-- Group bytes four at a time into big-endian 32-bit words. -/
def toWords : List Nat → List Nat
  | a :: b :: c :: d :: rest =>
      (a * 16777216 + b * 65536 + c * 256 + d) :: toWords rest
  | _ => []

/-- One step of the SHA-1 message schedule, on the reversed schedule list. -/
def schedStep (acc : List Nat) : List Nat :=
  rotl 1 (Nat.xor (Nat.xor (acc.getD 2 0) (acc.getD 7 0))
                  (Nat.xor (acc.getD 13 0) (acc.getD 15 0))) :: acc

/-- Iterate the schedule extension `k` times. -/
def buildSched (init : List Nat) : Nat → List Nat
  | 0 => init
  | k + 1 => schedStep (buildSched init k)

/-- The SHA-1 round function `f_t`. -/
def sha1F (t b c d : Nat) : Nat :=
  if t < 20 then Nat.lor (Nat.land b c) (Nat.land (Nat.xor b 4294967295) d)
  else if t < 40 then Nat.xor b (Nat.xor c d)
  else if t < 60 then
    Nat.lor (Nat.lor (Nat.land b c) (Nat.land b d)) (Nat.land c d)
  else Nat.xor b (Nat.xor c d)

/-- The SHA-1 round constant `K_t`. -/
def sha1K (t : Nat) : Nat :=
  if t < 20 then 1518500249
  else if t < 40 then 1859775393
  else if t < 60 then 2400959708
  else 3395469782

/-- The SHA-1 working state. -/
structure Sha1St where
  a : Nat
  b : Nat
  c : Nat
  d : Nat
  e : Nat
deriving DecidableEq

/-- One SHA-1 compression round. -/
def sha1Step (s : Sha1St) (tw : Nat × Nat) : Sha1St :=
  let tmp := (rotl 5 s.a + sha1F tw.1 s.b s.c s.d + s.e + sha1K tw.1 + tw.2) % w32
  ⟨tmp, s.a, rotl 30 s.b, s.c, s.d⟩

/-- Process one 64-byte chunk (given as its 16 words). -/
def sha1Chunk (h : Sha1St) (ws : List Nat) : Sha1St :=
  let sched := (buildSched ws.reverse 64).reverse
  let f := sched.enum.foldl (fun s p => sha1Step s p) h
  ⟨(h.a + f.a) % w32, (h.b + f.b) % w32, (h.c + f.c) % w32,
   (h.d + f.d) % w32, (h.e + f.e) % w32⟩

/-- Split a byte list into 64-byte chunks (fuel-based structural recursion). -/
def chunks64Go : Nat → List Nat → List (List Nat)
  | 0, _ => []
  | _, [] => []
  | fuel + 1, a :: t => ((a :: t).take 64) :: chunks64Go fuel (t.drop 63)

/-- Split a byte list into 64-byte chunks. -/
def chunks64 (l : List Nat) : List (List Nat) := chunks64Go l.length l

/-- The five 32-bit words of the SHA-1 digest of a string's UTF-8 bytes. -/
def sha1Words (s : String) : Sha1St :=
  (chunks64 (sha1pad (utf8Bytes s))).foldl
    (fun h c => sha1Chunk h (toWords c))
    ⟨1732584193, 4023233417, 2562383102, 271733878, 3285377520⟩

/-- The sixteen hexadecimal digit characters. -/
def hexDigits : List Char := "0123456789abcdef".data

/-- A single lower-case hexadecimal digit. -/
def hexChar (n : Nat) : Char := hexDigits.getD n '0'

/-- Eight hex digits of a 32-bit word, most significant first. -/
def hex8 (v : Nat) : String :=
  String.mk ((List.range 8).map (fun i => hexChar ((v >>> (28 - 4 * i)) % 16)))

/-- Models `hashlib.sha1(s.encode('UTF-8')).hexdigest()`. -/
def sha1_hexdigest (s : String) : String :=
  let h := sha1Words s
  hex8 h.a ++ hex8 h.b ++ hex8 h.c ++ hex8 h.d ++ hex8 h.e

/-- Python slicing `s[:n]` (first `n` characters). -/
def strTake (s : String) (n : Nat) : String :=
  String.mk (s.data.take n)

set_option maxRecDepth 100000

/-! ## Dictionaries as association lists -/

/-- Python `dict` lookup `d.get(k)`. -/
def lookupKV {α : Type} : List (String × α) → String → Option α
  | [], _ => none
  | (k, v) :: t, key => if k = key then some v else lookupKV t key

/-- Python `d[k] = v`: update in place if present, else append. -/
def setKV {α : Type} : List (String × α) → String → α → List (String × α)
  | [], key, v => [(key, v)]
  | (k, w) :: t, key, v =>
      if k = key then (key, v) :: t else (k, w) :: setKV t key v

/-- Python `d.update(kvs)`. -/
def setKVs {α : Type} (m kvs : List (String × α)) : List (String × α) :=
  kvs.foldl (fun acc p => setKV acc p.1 p.2) m

/-- Does the character list `n` occur at the head of `l`? -/
def headMatches : List Char → List Char → Bool
  | [], _ => true
  | a :: n, b :: l => a = b && headMatches n l
  | _ :: _, [] => false

/-- Does the character list `n` occur somewhere in `l`? -/
def subList : List Char → List Char → Bool
  | n, [] => n.isEmpty
  | n, b :: t => headMatches n (b :: t) || subList n t

/-- Python `needle in hay` on strings (substring containment). -/
def hasSubStr (hay needle : String) : Bool :=
  subList needle.data hay.data

/-! ## Sorting by key, and determinism of key-sorted association lists -/

/-- Lexicographic order on character lists by code point, as Python compares
strings. -/
def lexLE : List Char → List Char → Bool
  | [], _ => true
  | a :: s, b :: t =>
      if a.toNat < b.toNat then true
      else if b.toNat < a.toNat then false
      else lexLE s t
  | _ :: _, [] => false

/-- Python `<=` on strings. -/
def strLE (a b : String) : Bool := lexLE a.data b.data

/-- Ordering of key-value pairs by key. -/
def keyLEb {α : Type} (a b : String × α) : Bool := strLE a.1 b.1

/-- Ordered insertion by key. -/
def insKV {α : Type} (p : String × α) : List (String × α) → List (String × α)
  | [] => [p]
  | q :: t => if keyLEb p q then p :: q :: t else q :: insKV p t

/-- Sort an association list by key (models the key ordering of
`json.dumps(..., sort_keys=True)`). -/
def sortKV {α : Type} : List (String × α) → List (String × α)
  | [] => []
  | p :: t => insKV p (sortKV t)

/-- Ordered insertion of a string. -/
def insStr (x : String) : List String → List String
  | [] => [x]
  | y :: t => if strLE x y then x :: y :: t else y :: insStr x t

/-- Python `sorted` on a list of strings. -/
def sortStr : List String → List String
  | [] => []
  | x :: t => insStr x (sortStr t)

/-- Key-sortedness of an association list. -/
def KeySorted {α : Type} (l : List (String × α)) : Prop :=
  List.Pairwise (fun a b => keyLEb a b = true) l

/-! ## JSON serialization (models `json.dumps(v, sort_keys=True)`) -/

/-- JSON string escaping for one character (quote and backslash; the data
exchanged here contains no control characters). -/
def escChar (c : Char) : List Char :=
  if c = '"' then ['\\', '"']
  else if c = '\\' then ['\\', '\\']
  else [c]

/-- A JSON string literal. -/
def jsonQuote (s : String) : String :=
  String.mk ('"' :: s.data.foldr (fun c acc => escChar c ++ acc) ['"'])

/-- Join strings with a separator (Python `sep.join`). -/
def joinSep (sep : String) : List String → String
  | [] => ""
  | [x] => x
  | x :: y :: t => x ++ sep ++ joinSep sep (y :: t)

/-- Models `json.dumps` of a string-to-string dict with `sort_keys=True`. -/
def dumpStrMap (m : List (String × String)) : String :=
  "\x7b" ++ joinSep ", "
    ((sortKV m).map (fun p => jsonQuote p.1 ++ ": " ++ jsonQuote p.2)) ++ "\x7d"

/-- Models `json.dumps` of a list of strings. -/
def dumpStrList (l : List String) : String :=
  "[" ++ joinSep ", " (l.map jsonQuote) ++ "]"

/-- Models `json.dumps` of a dict mapping group names to member-key lists, with
`sort_keys=True`. -/
def dumpGroupMap (m : List (String × List String)) : String :=
  "\x7b" ++ joinSep ", "
    ((sortKV m).map (fun p => jsonQuote p.1 ++ ": " ++ dumpStrList p.2)) ++ "\x7d"

/-! ## The resource registry (CRM) -/

/-- Modelled from the spec: the resource registry
(`relations.hacluster.common.CRM`, whose module is not among the sources) —
"the aggregate of all Resources plus Groups plus any pending deletions,
addressable by key", in Python a dict whose entries keep insertion order. -/
structure CRM where
  resources : List (String × String)
  groups : List (String × List String)
  delete_resources : List String
deriving DecidableEq

/-- Modelled from the spec: a just-constructed registry with no resources. -/
def CRM.empty : CRM := ⟨[], [], []⟩

/-- Modelled from the spec: `add(resource)` "inserts or overwrites the resource
by its canonical key. No error on duplicate; last write wins." -/
def CRM.addRes (r : CRM) (key value : String) : CRM :=
  { r with resources := setKV r.resources key value }

/-- Modelled from the spec: `group(group_name, *member_keys)` "creates/overwrites
a named group whose members are the given resource keys". -/
def CRM.group (r : CRM) (name : String) (members : List String) : CRM :=
  { r with groups := setKV r.groups name members }

/-- Modelled from the spec: `add_delete(resource_key)` "records that a previously
managed resource should be torn down". -/
def CRM.add_delete_resource (r : CRM) (key : String) : CRM :=
  if key ∈ r.delete_resources then r
  else { r with delete_resources := r.delete_resources ++ [key] }

/-- The canonical key of a VIP resource, `res_<name>_<disambiguator>_vip`: the
disambiguator is the interface when given and non-empty, else the SHA-1 hex
digest of the address truncated to 7 characters — mirroring `remove_vip` in
`requires.py`, which reconstructs exactly this key. -/
def vipKey (name vip : String) (nic : Option String) : String :=
  let nic_name :=
    match nic with
    | some i => if i = "" then strTake (sha1_hexdigest vip) 7 else i
    | none => strTake (sha1_hexdigest vip) 7
  "res_" ++ name ++ "_" ++ nic_name ++ "_vip"

/-- Modelled from the spec: adding a `VirtualIP{name, address, interface?,
netmask?}` stores it under its canonical key; the stored value is the resource
kind tag (no claim depends on the stored payload). -/
def CRM.addVip (r : CRM) (name vip : String) (nic : Option String) : CRM :=
  r.addRes (vipKey name vip nic) "VirtualIP"

/-! ## Wire form of the registry -/

/-- A value in the persisted dict form of a registry. -/
inductive WireVal
  | smap : List (String × String) → WireVal
  | gmap : List (String × List String) → WireVal
  | slist : List String → WireVal
deriving DecidableEq

/-- Modelled from the spec: "malformed wire input ... fails with a DecodeError". -/
inductive DecodeError
  | malformed
deriving DecidableEq

/-- Modelled from the spec: `to_wire()` "produces a mapping of string keys to
... values, one entry per resource/group/deletion". This is the persisted dict
form; entries keep insertion order as a Python dict does. -/
def CRM.to_wire (r : CRM) : List (String × WireVal) :=
  [("resources", WireVal.smap r.resources),
   ("groups", WireVal.gmap r.groups),
   ("delete_resources", WireVal.slist r.delete_resources)]

/-- Modelled from the spec: `from_wire(mapping)` "reconstructs a Registry from a
previously produced wire mapping"; ill-shaped values fail with a `DecodeError`,
missing entries default to empty (as `CRM(**kwargs)` fills defaults). -/
def CRM.from_wire (w : List (String × WireVal)) : Except DecodeError CRM := do
  let rs ← match lookupKV w "resources" with
    | none => Except.ok []
    | some (WireVal.smap m) => Except.ok m
    | some _ => Except.error DecodeError.malformed
  let gs ← match lookupKV w "groups" with
    | none => Except.ok []
    | some (WireVal.gmap m) => Except.ok m
    | some _ => Except.error DecodeError.malformed
  let ds ← match lookupKV w "delete_resources" with
    | none => Except.ok []
    | some (WireVal.slist m) => Except.ok m
    | some _ => Except.error DecodeError.malformed
  Except.ok ⟨rs, gs, ds⟩

/-- Models `CRM(**resource_dict)`: rebuild a registry from its persisted dict form. -/
def crmRebuild (r : CRM) : CRM :=
  match CRM.from_wire (CRM.to_wire r) with
  | Except.ok r2 => r2
  | Except.error _ => r

/-! ## Relation state and the change-detection gate -/

/-- A scalar value written to relation data (`corosync_bindiface` is a string,
`corosync_mcastport` an int, `json_*` entries are JSON text strings). -/
inductive RVal
  | str : String → RVal
  | num : Int → RVal
deriving DecidableEq

/-- A change-detection payload: the key-value mapping proposed for a topic. -/
def Payload : Type := List (String × RVal)

instance : DecidableEq Payload := inferInstanceAs (DecidableEq (List (String × RVal)))

/-- Deep value equality of two payload mappings (insertion order of the dict
does not matter). -/
def payloadEq (p q : Payload) : Bool := sortKV p = sortKV q

/-- The unit's relation-side state: the persisted `resources` registry, the
other local relation data, the remote relation data, and the change-detection
cache (one last-seen payload per topic). -/
structure RelState where
  resources : Option CRM
  localData : List (String × RVal)
  remoteData : List (String × RVal)
  cache : List (String × Payload)
deriving DecidableEq

/-- A freshly constructed state: nothing persisted, nothing written. -/
def RelState.empty : RelState := ⟨none, [], [], []⟩

/-- Modelled from the spec: the change-detection gate
`charms.reactive.helpers.data_changed` (external collaborator) — "Returns true
(and updates last-seen) the first time a topic is seen, or whenever the payload
differs from the last-seen one by value (deep equality on the mapping), false
otherwise." Returns the verdict and the updated cache. -/
def data_changed (cache : List (String × Payload)) (topic : String)
    (payload : Payload) : Bool × List (String × Payload) :=
  match lookupKV cache topic with
  | some old =>
      if payloadEq old payload then (false, cache)
      else (true, setKV cache topic payload)
  | none => (true, setKV cache topic payload)

/-- Models `set_local(**kv)` and `set_remote(**kv)` applied to both stores when the gate
fires. -/
def writeBoth (st : RelState) (kv : Payload)
    (cache : List (String × Payload)) : RelState :=
  { st with localData := setKVs st.localData kv,
            remoteData := setKVs st.remoteData kv,
            cache := cache }

/-! ## The adapter operations of `HAClusterRequires` -/

/-- The `relation_data` dict built by `bind_on` (`requires.py:70-74`):
entries are included only for truthy arguments. -/
def bind_on_payload (iface : Option String) (mcastport : Option Int) : Payload :=
  (match iface with
   | some i => if i = "" then [] else [("corosync_bindiface", RVal.str i)]
   | none => []) ++
  (match mcastport with
   | some p => if p = 0 then [] else [("corosync_mcastport", RVal.num p)]
   | none => [])

/-- Models `bind_on` (`requires.py:69-78`): writes the payload to local and remote
relation data only when it is non-empty and the gate reports a change. -/
def bind_on (st : RelState) (iface : Option String) (mcastport : Option Int) :
    RelState :=
  let relation_data := bind_on_payload iface mcastport
  if relation_data = [] then st
  else
    let dc := data_changed st.cache "hacluster-bind_on" relation_data
    if dc.1 then writeBoth st relation_data dc.2
    else { st with cache := dc.2 }

/-- The `relation_data` dict built by `manage_resources` (`requires.py:96-99`):
each non-empty registry entry, JSON-encoded with sorted keys, under a
`json_`-prefixed key. -/
def wire_payload (crm : CRM) : List (String × String) :=
  (if crm.resources = [] then []
   else [("json_resources", dumpStrMap crm.resources)]) ++
  (if crm.groups = [] then []
   else [("json_groups", dumpGroupMap crm.groups)]) ++
  (if crm.delete_resources = [] then []
   else [("json_delete_resources", dumpStrList crm.delete_resources)])

/-- Models `manage_resources` (`requires.py:80-102`): writes the serialized registry
to local and remote relation data when the gate reports a change. -/
def manage_resources (st : RelState) (crm : CRM) : RelState :=
  let relation_data : Payload := (wire_payload crm).map (fun p => (p.1, RVal.str p.2))
  let dc := data_changed st.cache "hacluster-manage_resources" relation_data
  if dc.1 then writeBoth st relation_data dc.2
  else { st with cache := dc.2 }

/-- Models `bind_resources` (`requires.py:104-118`): default the multicast port to
4440, call `bind_on`, and call `manage_resources` only when a `resources`
mapping is persisted locally. -/
def bind_resources (st : RelState) (iface : Option String)
    (mcastport : Option Int) : RelState :=
  let port : Int := match mcastport with | none => 4440 | some p => p
  let resources_dict := st.resources
  let st2 := bind_on st iface (some port)
  match resources_dict with
  | some r => manage_resources st2 (crmRebuild r)
  | none => st2

/-- Models `delete_resource` (`requires.py:120-127`): rebuild the persisted registry
(or start empty), record the deletion, persist. -/
def delete_resource (st : RelState) (resource_name : String) : RelState :=
  let resources := match st.resources with
    | some r => crmRebuild r
    | none => CRM.empty
  { st with resources := some (resources.add_delete_resource resource_name) }

/-- Models `add_vip` (`requires.py:129-162`): rebuild the persisted registry (or start
empty), add the VIP resource, then — only if a registry was persisted and its
`resources` entry is non-empty — overwrite group `grp_<name>_vips` with the
sorted keys of the *previously persisted* resources containing `"vip"`. -/
def add_vip (st : RelState) (name vip : String) (iface netmask : Option String) :
    RelState :=
  let resource_dict := st.resources
  let resources := match resource_dict with
    | some r => crmRebuild r
    | none => CRM.empty
  let resources := resources.addVip name vip iface
  let group := "grp_" ++ name ++ "_vips"
  let resources :=
    match resource_dict with
    | some rd =>
        let vip_resources := rd.resources
        if vip_resources = [] then resources
        else
          let vip_res_group_members :=
            (vip_resources.map Prod.fst).filter (fun k => hasSubStr k "vip")
          resources.group group (sortStr vip_res_group_members)
    | none => resources
  { st with resources := some resources }

/-- Models `remove_vip` (`requires.py:164-175`): compute the VIP key from the
interface when truthy, else from the truncated SHA-1 digest of the address,
and record its deletion. -/
def remove_vip (st : RelState) (name vip : String) (iface : Option String) :
    RelState :=
  let nic_name :=
    match iface with
    | some i => if i = "" then strTake (sha1_hexdigest vip) 7 else i
    | none => strTake (sha1_hexdigest vip) 7
  delete_resource st ("res_" ++ name ++ "_" ++ nic_name ++ "_vip")

/-- Models `remove_dnsha` (`requires.py:262-272`): the deletion key is built from the
instance attributes `self.service_name` and `self.endpoint_type` (passed here
explicitly as `self_service_name`/`self_endpoint_type`), not from the `name`
and `endpoint_type` parameters, which go unused. -/
def remove_dnsha (st : RelState) (self_service_name self_endpoint_type : String)
    (name endpoint_type : String) : RelState :=
  let res_key :=
    "res_" ++ self_service_name.replace "-" "_" ++ "_" ++
      self_endpoint_type ++ "_hostname"
  delete_resource st res_key

/-! ## The connection state machine (`joined`/`changed`/`departed` handlers) -/

/-- The two reactive flags `{relation_name}.connected` and
`{relation_name}.available`. -/
structure ConnState where
  connected : Bool
  available : Bool
deriving DecidableEq

/-- The relation lifecycle events delivered to the handlers; `changed` carries
the value of `is_clustered()` observed by the handler. -/
inductive Event
  | joined
  | changed (clustered : Bool)
  | departed
deriving DecidableEq

/-- The handlers (`requires.py:31-45`): `joined` sets the connected flag,
`changed` sets or clears the available flag from `is_clustered()`, and
`departed` (relation-broken/departed) clears both flags. -/
def step (s : ConnState) : Event → ConnState
  | Event.joined => { s with connected := true }
  | Event.changed c =>
      if c then { s with available := true } else { s with available := false }
  | Event.departed => ⟨false, false⟩

/-- Run the handlers over a sequence of events from the disconnected state. -/
def run (es : List Event) : ConnState := es.foldl step ⟨false, false⟩

/-- States reachable when events respect the relation lifecycle: a `changed`
event is only delivered while the relation is joined (connected). -/
inductive Reach : ConnState → Prop
  | init : Reach ⟨false, false⟩
  | joined {s : ConnState} : Reach s → Reach (step s Event.joined)
  | changed {s : ConnState} {c : Bool} :
      Reach s → s.connected = true → Reach (step s (Event.changed c))
  | departed {s : ConnState} : Reach s → Reach (step s Event.departed)

/-! ## Reading the `clustered` flag -/

/-- A value a remote unit may present for the `clustered` key: future versions
send a bool, current versions a string. -/
inductive RemoteVal
  | bool : Bool → RemoteVal
  | str : String → RemoteVal
deriving DecidableEq

/-- Python truthiness of a remote value (`if value:`). -/
def remoteTruthy : RemoteVal → Bool
  | RemoteVal.bool b => b
  | RemoteVal.str s => s != ""

/-- First-occurrence deduplication (the effect of Python `list(set(values))`;
the set's iteration order is arbitrary in Python, so the theorems below only
exercise datasets with at most one distinct value, where order is immaterial). -/
def dedupGo : List RemoteVal → List RemoteVal → List RemoteVal
  | _, [] => []
  | seen, x :: t => if x ∈ seen then dedupGo seen t else x :: dedupGo (x :: seen) t

/-- Deduplicate a list of remote values. -/
def dedup (l : List RemoteVal) : List RemoteVal := dedupGo [] l

/-- Models `get_remote_all` (`requires.py:274-285`): collect the values presented by
the related units for a key (one `Option` entry per unit), keeping only truthy
values, deduplicated. -/
def get_remote_all (vals : List (Option RemoteVal)) : List RemoteVal :=
  dedup ((vals.filterMap id).filter remoteTruthy)

/-- Python `str.lower()` for ASCII letters (the only data exchanged here). -/
def lowerChar (c : Char) : Char :=
  match [('A', 'a'), ('B', 'b'), ('C', 'c'), ('D', 'd'), ('E', 'e'), ('F', 'f'),
         ('G', 'g'), ('H', 'h'), ('I', 'i'), ('J', 'j'), ('K', 'k'), ('L', 'l'),
         ('M', 'm'), ('N', 'n'), ('O', 'o'), ('P', 'p'), ('Q', 'q'), ('R', 'r'),
         ('S', 's'), ('T', 't'), ('U', 'u'), ('V', 'v'), ('W', 'w'), ('X', 'x'),
         ('Y', 'y'), ('Z', 'z')].lookup c with
  | some d => d
  | none => c

/-- Python `s.lower()`. -/
def strLower (s : String) : String := String.mk (s.data.map lowerChar)

/-- Models `is_clustered` (`requires.py:47-67`): take the first collected value; a
bool is returned as-is, a string yields true exactly when it lower-cases to
`"true"` or `"yes"`; with no collected values the result is false. -/
def is_clustered (vals : List (Option RemoteVal)) : Bool :=
  match get_remote_all vals with
  | [] => false
  | clustered :: _ =>
      match clustered with
      | RemoteVal.bool b => b
      | RemoteVal.str s =>
          if strLower s = "true" || strLower s = "yes" then true else false

/-! ## Concrete scenario registries -/

/-- State after `add_vip('neutron', '10.0.0.5', iface='eth0')` on a fresh
registry. -/
def c1State1 : RelState :=
  add_vip RelState.empty "neutron" "10.0.0.5" (some "eth0") none

/-- State after then adding `add_vip('nova', '10.0.0.6')`. -/
def c1State2 : RelState := add_vip c1State1 "nova" "10.0.0.6" none none

/-- The registry persisted after the first add. -/
def c1Crm1 : CRM := c1State1.resources.getD CRM.empty

/-- The registry persisted after the second add. -/
def c1Crm2 : CRM := c1State2.resources.getD CRM.empty

/-- A registry built in one add order. -/
def c6r1 : CRM :=
  ⟨[("res_a_x_vip", "VirtualIP"), ("res_b_y_vip", "VirtualIP")],
   [("grp_s_vips", ["res_a_x_vip"])], ["res_old"]⟩

/-- The logically identical registry built in the other add order. -/
def c6r2 : CRM :=
  ⟨[("res_b_y_vip", "VirtualIP"), ("res_a_x_vip", "VirtualIP")],
   [("grp_s_vips", ["res_a_x_vip"])], ["res_old"]⟩

/-! ## Base lemmas and sanity checks -/

example : strTake (sha1_hexdigest "10.0.0.5") 7 = "00d7353" := by decide
example : strTake (sha1_hexdigest "10.0.0.6") 7 = "d85d4f6" := by decide

example : hasSubStr "res_neutron_eth0_vip" "vip" = true := by decide
example : hasSubStr "res_neutron_haproxy" "vip" = false := by decide

/-- Characters with the same code point are equal. -/
theorem char_toNat_inj {a b : Char} (h : a.toNat = b.toNat) : a = b := by
  apply Char.ext
  apply UInt32.ext
  simpa [Char.toNat, UInt32.toNat] using h

theorem lexLE_refl : ∀ a, lexLE a a = true := by
  intro a
  induction a with
  | nil => rfl
  | cons x s ih => simp [lexLE, ih]

theorem lexLE_total : ∀ a b, lexLE a b = true ∨ lexLE b a = true := by
  intro a
  induction a with
  | nil => intro b; left; rfl
  | cons x s ih =>
    intro b
    cases b with
    | nil => right; rfl
    | cons y t =>
      by_cases h1 : x.toNat < y.toNat
      · left; simp [lexLE, h1]
      · by_cases h2 : y.toNat < x.toNat
        · right; simp [lexLE, h2]
        · rcases ih t with h | h
          · left; simp [lexLE, h1, h2, h]
          · right; simp [lexLE, h1, h2, h]

theorem lexLE_antisymm : ∀ a b, lexLE a b = true → lexLE b a = true → a = b := by
  intro a
  induction a with
  | nil =>
    intro b h1 h2
    cases b with
    | nil => rfl
    | cons y t => exact absurd h2 (by simp [lexLE])
  | cons x s ih =>
    intro b h1 h2
    cases b with
    | nil => exact absurd h1 (by simp [lexLE])
    | cons y t =>
      by_cases hxy : x.toNat < y.toNat
      · exact absurd h2 (by simp [lexLE, hxy, Nat.lt_asymm hxy])
      · by_cases hyx : y.toNat < x.toNat
        · exact absurd h1 (by simp [lexLE, hxy, hyx])
        · have hx : x = y :=
            char_toNat_inj (Nat.le_antisymm (Nat.not_lt.mp hyx) (Nat.not_lt.mp hxy))
          subst hx
          have h1' : lexLE s t = true := by simpa [lexLE, hxy] using h1
          have h2' : lexLE t s = true := by simpa [lexLE, hxy] using h2
          rw [ih t h1' h2']

theorem lexLE_trans :
    ∀ a b c, lexLE a b = true → lexLE b c = true → lexLE a c = true := by
  intro a
  induction a with
  | nil => intro b c _ _; rfl
  | cons x s ih =>
    intro b c h1 h2
    cases b with
    | nil => exact absurd h1 (by simp [lexLE])
    | cons y t =>
      cases c with
      | nil => exact absurd h2 (by simp [lexLE])
      | cons z u =>
        by_cases hxy : x.toNat < y.toNat
        · by_cases hyz : y.toNat < z.toNat
          · simp [lexLE, Nat.lt_trans hxy hyz]
          · by_cases hzy : z.toNat < y.toNat
            · exact absurd h2 (by simp [lexLE, hyz, hzy])
            · have hy : y.toNat = z.toNat :=
                Nat.le_antisymm (Nat.not_lt.mp hzy) (Nat.not_lt.mp hyz)
              simp [lexLE, hy ▸ hxy]
        · by_cases hyx : y.toNat < x.toNat
          · exact absurd h1 (by simp [lexLE, hxy, hyx])
          · have hx : x.toNat = y.toNat :=
              Nat.le_antisymm (Nat.not_lt.mp hyx) (Nat.not_lt.mp hxy)
            have h1' : lexLE s t = true := by simpa [lexLE, hxy, hyx] using h1
            by_cases hyz : y.toNat < z.toNat
            · simp [lexLE, hx ▸ hyz]
            · by_cases hzy : z.toNat < y.toNat
              · exact absurd h2 (by simp [lexLE, hyz, hzy])
              · have h2' : lexLE t u = true := by simpa [lexLE, hyz, hzy] using h2
                have hxz : ¬ x.toNat < z.toNat := by omega
                have hzx : ¬ z.toNat < x.toNat := by omega
                simp [lexLE, hxz, hzx, ih t u h1' h2']

theorem strLE_refl (a : String) : strLE a a = true := lexLE_refl a.data

theorem strLE_total (a b : String) : strLE a b = true ∨ strLE b a = true :=
  lexLE_total a.data b.data

theorem strLE_antisymm {a b : String} (h1 : strLE a b = true)
    (h2 : strLE b a = true) : a = b := by
  cases a with
  | mk da =>
    cases b with
    | mk db => exact congrArg String.mk (lexLE_antisymm da db h1 h2)

theorem strLE_trans {a b c : String} (h1 : strLE a b = true)
    (h2 : strLE b c = true) : strLE a c = true :=
  lexLE_trans a.data b.data c.data h1 h2

example : sortKV [("b", 1), ("a", 2)] = [("a", 2), ("b", 1)] := by decide
example : sortStr ["res_b", "res_a"] = ["res_a", "res_b"] := by decide

theorem insKV_perm {α : Type} (p : String × α) :
    ∀ l, (insKV p l).Perm (p :: l) := by
  intro l
  induction l with
  | nil => exact List.Perm.refl _
  | cons q t ih =>
    by_cases h : keyLEb p q
    · simp [insKV, h]
    · simp only [insKV, h, if_neg]
      exact (ih.cons q).trans (List.Perm.swap p q t)

theorem sortKV_perm {α : Type} : ∀ l : List (String × α), (sortKV l).Perm l := by
  intro l
  induction l with
  | nil => exact List.Perm.refl _
  | cons p t ih => exact (insKV_perm p (sortKV t)).trans (ih.cons p)

theorem insKV_keySorted {α : Type} (p : String × α) :
    ∀ l, KeySorted l → KeySorted (insKV p l) := by
  intro l
  induction l with
  | nil => intro _; exact List.pairwise_cons.mpr ⟨by simp, List.Pairwise.nil⟩
  | cons q t ih =>
    intro hs
    rcases List.pairwise_cons.mp hs with ⟨hq, ht⟩
    by_cases h : keyLEb p q
    · have he : insKV p (q :: t) = p :: q :: t := by simp [insKV, h]
      rw [he]
      refine List.pairwise_cons.mpr ⟨?_, hs⟩
      intro x hx
      rcases List.mem_cons.mp hx with h2 | hx
      · subst h2; exact h
      · exact strLE_trans h (hq x hx)
    · have hqp : keyLEb q p = true := by
        rcases strLE_total p.1 q.1 with ht1 | ht1
        · exact absurd ht1 h
        · exact ht1
      simp only [insKV, h, if_neg]
      refine List.pairwise_cons.mpr ⟨?_, ih ht⟩
      intro x hx
      have hx2 : x ∈ p :: t := (insKV_perm p t).mem_iff.mp hx
      rcases List.mem_cons.mp hx2 with rfl | hx2
      · exact hqp
      · exact hq x hx2

theorem sortKV_keySorted {α : Type} : ∀ l : List (String × α), KeySorted (sortKV l) := by
  intro l
  induction l with
  | nil => exact List.Pairwise.nil
  | cons p t ih => exact insKV_keySorted p (sortKV t) ih

/-- Two key-sorted association lists that are permutations of one another,
with duplicate-free keys, are equal. -/
theorem sorted_key_eq_of_perm {α : Type} :
    ∀ l1 l2 : List (String × α), l1.Perm l2 → (l1.map Prod.fst).Nodup →
      KeySorted l1 → KeySorted l2 → l1 = l2 := by
  intro l1
  induction l1 with
  | nil =>
    intro l2 hp _ _ _
    exact (hp.symm.eq_nil).symm
  | cons a t1 ih =>
    intro l2 hp hn hs1 hs2
    cases l2 with
    | nil => exact absurd hp.eq_nil (by simp)
    | cons b t2 =>
      have hale : ∀ x ∈ a :: t1, keyLEb a x = true := by
        intro x hx
        rcases List.mem_cons.mp hx with h | h
        · subst h; exact strLE_refl _
        · exact (List.pairwise_cons.mp hs1).1 x h
      have hble : ∀ x ∈ b :: t2, keyLEb b x = true := by
        intro x hx
        rcases List.mem_cons.mp hx with h | h
        · subst h; exact strLE_refl _
        · exact (List.pairwise_cons.mp hs2).1 x h
      have hbmem : b ∈ a :: t1 := hp.mem_iff.mpr (List.mem_cons_self b t2)
      have hamem : a ∈ b :: t2 := hp.mem_iff.mp (List.mem_cons_self a t1)
      have hkey : a.1 = b.1 := strLE_antisymm (hale b hbmem) (hble a hamem)
      have hba : b = a := by
        rcases List.mem_cons.mp hbmem with h | h
        · exact h
        · exact absurd (hkey ▸ List.mem_map_of_mem Prod.fst h)
            (List.nodup_cons.mp hn).1
      subst hba
      have ht : t1 = t2 :=
        ih t2 hp.cons_inv (List.nodup_cons.mp hn).2
          (List.pairwise_cons.mp hs1).2 (List.pairwise_cons.mp hs2).2
      rw [ht]

/-- The function `sortKV` maps permuted duplicate-free association lists to the same
sorted list. -/
theorem sortKV_congr {α : Type} (l1 l2 : List (String × α))
    (hp : l1.Perm l2) (hn : (l1.map Prod.fst).Nodup) :
    sortKV l1 = sortKV l2 := by
  refine sorted_key_eq_of_perm _ _ ?_ ?_ ?_ ?_
  · exact (sortKV_perm l1).trans (hp.trans (sortKV_perm l2).symm)
  · exact (((sortKV_perm l1).map Prod.fst).nodup_iff).mpr hn
  · exact sortKV_keySorted l1
  · exact sortKV_keySorted l2

example :
    dumpStrMap [("b", "y"), ("a", "x")] = "\x7b\"a\": \"x\", \"b\": \"y\"\x7d" := by
  decide

/-- Serializing a registry and reading it back restores it exactly. -/
theorem from_wire_to_wire (r : CRM) :
    CRM.from_wire (CRM.to_wire r) = Except.ok r := rfl

theorem crmRebuild_eq (r : CRM) : crmRebuild r = r := rfl

/-! ## Helper lemmas -/

theorem lookupKV_setKV_self {α : Type} :
    ∀ (m : List (String × α)) (k : String) (v : α),
      lookupKV (setKV m k v) k = some v := by
  intro m k v
  induction m with
  | nil => simp [setKV, lookupKV]
  | cons p t ih =>
    obtain ⟨k1, v1⟩ := p
    by_cases h : k1 = k <;> simp [setKV, lookupKV, h, ih]

theorem lookupKV_setKV_ne {α : Type} :
    ∀ (m : List (String × α)) (k k2 : String) (v : α), k ≠ k2 →
      lookupKV (setKV m k v) k2 = lookupKV m k2 := by
  intro m k k2 v hne
  induction m with
  | nil => simp [setKV, lookupKV, hne]
  | cons p t ih =>
    obtain ⟨k1, v1⟩ := p
    by_cases h : k1 = k
    · subst h; simp [setKV, lookupKV, hne]
    · simp [setKV, lookupKV, h, ih]

theorem payloadEq_refl (p : Payload) : payloadEq p p = true := by
  simp [payloadEq]

theorem mem_add_delete (r : CRM) (k : String) :
    k ∈ (r.add_delete_resource k).delete_resources := by
  by_cases h : k ∈ r.delete_resources <;> simp [CRM.add_delete_resource, h]

/-! ## Claim C4: wire round-trip -/

/-- C4: for every registry `R`, rebuilding from the persisted wire mapping
produced by serializing `R` — as `bind_resources` does via
`CRM(**resources_dict)` — restores `R` exactly: same resources, same groups,
same pending deletions. -/
theorem hacluster_C4 (r : CRM) :
    CRM.from_wire (CRM.to_wire r) = Except.ok r ∧ crmRebuild r = r :=
  ⟨from_wire_to_wire r, crmRebuild_eq r⟩

/-! ## Claim C8: `remove_dnsha` ignores its parameters -/

/-- C8: the deletion key of `remove_dnsha` is built from the instance
attributes `self.service_name`/`self.endpoint_type`; the `name` and
`endpoint_type` parameters do not influence the result. -/
theorem hacluster_C8 (st : RelState) (sn et n1 e1 n2 e2 : String) :
    remove_dnsha st sn et n1 e1 = remove_dnsha st sn et n2 e2 ∧
    remove_dnsha st sn et n1 e1 =
      delete_resource st
        ("res_" ++ sn.replace "-" "_" ++ "_" ++ et ++ "_hostname") :=
  ⟨rfl, rfl⟩

/-! ## Claim C10: `bind_on` with no arguments is a no-op -/

/-- C10: `bind_on` called with both `iface` and `mcastport` absent writes
nothing to local or remote relation data and leaves the change-detection
cache — in fact the whole state — unchanged. -/
theorem hacluster_C10 (st : RelState) : bind_on st none none = st := rfl

/-! ## Claim C1: VIP grouping on successive `add_vip` calls -/

/-- C1 fails on the code: after the first add the group `grp_neutron_vips`
does not exist at all (`add_vip` only creates a group when a registry was
already persisted), and after the second add `grp_nova_vips` holds the
*previously persisted* neutron key, not the nova key. -/
theorem hacluster_C1_counterexample :
    ¬ (lookupKV c1Crm1.groups "grp_neutron_vips" = some ["res_neutron_eth0_vip"] ∧
       lookupKV c1Crm2.groups "grp_nova_vips" =
         some ["res_nova_" ++ strTake (sha1_hexdigest "10.0.0.6") 7 ++ "_vip"]) := by
  decide

/-- C1 (amended): adding the neutron VIP to an empty registry creates no VIP
group; after then adding the nova VIP, the only group is `grp_nova_vips` and it
contains exactly the VIP key persisted before that add — the neutron key — while
both VIP resources are present under their canonical keys. -/
theorem hacluster_C1_amended :
    c1Crm1.groups = [] ∧
    c1Crm1.resources = [("res_neutron_eth0_vip", "VirtualIP")] ∧
    c1Crm2.groups = [("grp_nova_vips", ["res_neutron_eth0_vip"])] ∧
    lookupKV c1Crm2.resources
        ("res_nova_" ++ strTake (sha1_hexdigest "10.0.0.6") 7 ++ "_vip") =
      some "VirtualIP" := by
  decide

/-! ## Claim C2: connection state machine invariant -/

/-- C2 fails for the unrestricted step relation of the handlers: a `changed`
event with `is_clustered()` true, delivered in the disconnected state, sets
the available flag without the connected flag, since the `changed` handler
never touches the connected flag. -/
theorem hacluster_C2_counterexample :
    ¬ ∀ es : List Event, (run es).available = true → (run es).connected = true := by
  intro h
  exact absurd (h [Event.changed true] rfl) (by decide)

/-- C2 (amended): when `changed` events are only delivered while connected —
as the relation lifecycle guarantees — every reachable state satisfies
"available implies connected"; and the `departed` handler clears both the
available and the connected flag from any state. -/
theorem hacluster_C2_amended :
    (∀ s : ConnState, Reach s → s.available = true → s.connected = true) ∧
    (∀ s : ConnState, (step s Event.departed).available = false ∧
       (step s Event.departed).connected = false) := by
  constructor
  · intro s hs
    induction hs with
    | init => intro h; exact absurd h (by decide)
    | joined hr ih => intro _; rfl
    | @changed s0 c hr hc ih =>
      intro _
      cases c <;> simpa [step] using hc
    | departed hr ih => intro h; simp [step] at h
  · intro s
    exact ⟨rfl, rfl⟩

/-- Witness for C2 (amended) at the concrete reachable state
`{connected := true, available := true}`. -/
theorem hacluster_C2_witness :
    (⟨true, true⟩ : ConnState).connected = true ∧
    (step ⟨true, true⟩ Event.departed).available = false :=
  ⟨hacluster_C2_amended.1 ⟨true, true⟩
      (@Reach.changed ⟨true, false⟩ true (Reach.joined Reach.init) rfl) rfl,
   (hacluster_C2_amended.2 ⟨true, true⟩).1⟩

/-! ## Claim C3: `is_clustered` -/

/-- C3: with a single remote value for the `clustered` key, `is_clustered`
returns true exactly for the boolean `true` or a string that lower-cases to
`"true"` or `"yes"`; it returns false for `"false"`, for an absent value and
for an empty one. -/
theorem hacluster_C3 :
    (∀ v : RemoteVal,
       (is_clustered [some v] = true ↔
         (v = RemoteVal.bool true ∨
          ∃ s, v = RemoteVal.str s ∧ (strLower s = "true" ∨ strLower s = "yes")))) ∧
    is_clustered [some (RemoteVal.str "false")] = false ∧
    is_clustered [] = false ∧
    is_clustered [none] = false ∧
    is_clustered [some (RemoteVal.str "")] = false := by
  refine ⟨?_, by decide, by decide, by decide, by decide⟩
  intro v
  cases v with
  | bool b =>
    cases b with
    | true => simp [is_clustered, get_remote_all, remoteTruthy, dedup, dedupGo]
    | false => simp [is_clustered, get_remote_all, remoteTruthy, dedup, dedupGo]
  | str s =>
    by_cases he : s = ""
    · subst he
      simp [is_clustered, get_remote_all, remoteTruthy, dedup, dedupGo]
      exact ⟨by decide, by decide⟩
    · simp [is_clustered, get_remote_all, remoteTruthy, dedup, dedupGo, he]

/-! ## Claim C5: change detection -/

/-- After `manage_resources`, the cache holds a payload deep-equal to the one
just proposed for the `hacluster-manage_resources` topic. -/
theorem manage_cache_cur (st : RelState) (crm : CRM) :
    ∃ q, lookupKV (manage_resources st crm).cache "hacluster-manage_resources" =
          some q ∧
        payloadEq q ((wire_payload crm).map (fun x => (x.1, RVal.str x.2))) = true := by
  cases hc : lookupKV st.cache "hacluster-manage_resources" with
  | none =>
    refine ⟨(wire_payload crm).map (fun x => (x.1, RVal.str x.2)), ?_, payloadEq_refl _⟩
    simp [manage_resources, data_changed, hc, writeBoth, lookupKV_setKV_self]
  | some q =>
    by_cases hq : payloadEq q ((wire_payload crm).map (fun x => (x.1, RVal.str x.2))) = true
    · exact ⟨q, by simp [manage_resources, data_changed, hc, hq], hq⟩
    · refine ⟨(wire_payload crm).map (fun x => (x.1, RVal.str x.2)), ?_, payloadEq_refl _⟩
      simp [manage_resources, data_changed, hc, hq, writeBoth, lookupKV_setKV_self]

/-- Calling `manage_resources` is a no-op when the cached payload for its topic is
deep-equal to the proposed one. -/
theorem manage_noop (st : RelState) (crm : CRM) (q : Payload)
    (hq : lookupKV st.cache "hacluster-manage_resources" = some q)
    (he : payloadEq q ((wire_payload crm).map (fun x => (x.1, RVal.str x.2))) = true) :
    manage_resources st crm = st := by
  simp [manage_resources, data_changed, hq, he]

/-- C5: the gate fires exactly when the topic is unseen or the proposed payload
differs (deep value equality) from the last-seen one; consequently a second
`manage_resources` call whose registry serializes to the identical payload
leaves the state — local data, remote data and cache — untouched. -/
theorem hacluster_C5 (cache : List (String × Payload)) (topic : String)
    (p : Payload) (st : RelState) (r1 r2 : CRM)
    (h : wire_payload r1 = wire_payload r2) :
    ((data_changed cache topic p).1 = true ↔
       ∀ q, lookupKV cache topic = some q → payloadEq q p = false) ∧
    manage_resources (manage_resources st r1) r2 = manage_resources st r1 := by
  constructor
  · cases hc : lookupKV cache topic with
    | none => simp [data_changed, hc]
    | some q =>
      by_cases hq : payloadEq q p = true
      · simp [data_changed, hc, hq]
      · simp [data_changed, hc, hq]
  · obtain ⟨q, hq, he⟩ := manage_cache_cur st r1
    refine manage_noop _ r2 q hq ?_
    have h2 : ((wire_payload r2).map (fun x => (x.1, RVal.str x.2)) : Payload)
        = (wire_payload r1).map (fun x => (x.1, RVal.str x.2)) := by rw [h]
    rw [h2]
    exact he

/-- Witness for C5 at concrete inputs (empty cache, empty registry). -/
theorem hacluster_C5_witness :
    (((data_changed [] "t" []).1 = true ↔
       ∀ q, lookupKV ([] : List (String × Payload)) "t" = some q →
         payloadEq q [] = false) ∧
     manage_resources (manage_resources RelState.empty CRM.empty) CRM.empty =
       manage_resources RelState.empty CRM.empty) :=
  hacluster_C5 [] "t" [] RelState.empty CRM.empty CRM.empty rfl

/-! ## Claim C6: deterministic serialization -/

/-- C6: two registries with identical logical content — resource and group
dicts equal up to insertion order (duplicate-free keys), identical deletion
lists — serialize to byte-identical `manage_resources` payloads, thanks to
`sort_keys=True`. -/
theorem hacluster_C6 (r1 r2 : CRM)
    (hres : r1.resources.Perm r2.resources)
    (hresn : (r1.resources.map Prod.fst).Nodup)
    (hgrp : r1.groups.Perm r2.groups)
    (hgrpn : (r1.groups.map Prod.fst).Nodup)
    (hdel : r1.delete_resources = r2.delete_resources) :
    wire_payload r1 = wire_payload r2 := by
  have h1 : dumpStrMap r1.resources = dumpStrMap r2.resources := by
    unfold dumpStrMap
    rw [sortKV_congr _ _ hres hresn]
  have h2 : dumpGroupMap r1.groups = dumpGroupMap r2.groups := by
    unfold dumpGroupMap
    rw [sortKV_congr _ _ hgrp hgrpn]
  have e1 : (r1.resources = []) ↔ (r2.resources = []) := by
    rw [← List.length_eq_zero, ← List.length_eq_zero, hres.length_eq]
  have e2 : (r1.groups = []) ↔ (r2.groups = []) := by
    rw [← List.length_eq_zero, ← List.length_eq_zero, hgrp.length_eq]
  by_cases hr : r1.resources = []
  · have hr2 : r2.resources = [] := e1.mp hr
    by_cases hg : r1.groups = []
    · have hg2 : r2.groups = [] := e2.mp hg
      simp [wire_payload, hr, hr2, hg, hg2, hdel]
    · have hg2 : ¬ r2.groups = [] := fun h => hg (e2.mpr h)
      simp [wire_payload, hr, hr2, hg, hg2, hdel, h2]
  · have hr2 : ¬ r2.resources = [] := fun h => hr (e1.mpr h)
    by_cases hg : r1.groups = []
    · have hg2 : r2.groups = [] := e2.mp hg
      simp [wire_payload, hr, hr2, hg, hg2, hdel, h1]
    · have hg2 : ¬ r2.groups = [] := fun h => hg (e2.mpr h)
      simp [wire_payload, hr, hr2, hg, hg2, hdel, h1, h2]

/-- Witness for C6 on two concrete registries differing in insertion order. -/
theorem hacluster_C6_witness : wire_payload c6r1 = wire_payload c6r2 :=
  hacluster_C6 c6r1 c6r2 (List.Perm.swap _ _ _) (by decide)
    (List.Perm.refl _) (by decide) rfl

/-! ## Claim C7: `remove_vip` deletion key -/

/-- C7: without an interface, `remove_vip` records a deletion for
`res_<name>_<hash7>_vip` where `hash7` is the SHA-1 hex digest of the address
truncated to 7 characters; with a (truthy) interface, the interface name takes
the place of the hash. -/
theorem hacluster_C7 (st : RelState) (name vip iface : String)
    (hif : iface ≠ "") :
    remove_vip st name vip none =
      delete_resource st
        ("res_" ++ name ++ "_" ++ strTake (sha1_hexdigest vip) 7 ++ "_vip") ∧
    ("res_" ++ name ++ "_" ++ strTake (sha1_hexdigest vip) 7 ++ "_vip") ∈
      ((remove_vip st name vip none).resources.getD CRM.empty).delete_resources ∧
    remove_vip st name vip (some iface) =
      delete_resource st ("res_" ++ name ++ "_" ++ iface ++ "_vip") := by
  refine ⟨rfl, ?_, ?_⟩
  · exact mem_add_delete _ _
  · simp [remove_vip, hif]

/-- Witness for C7: `remove_vip('neutron', '10.0.0.5')` deletes
`res_neutron_00d7353_vip` (the digest of `10.0.0.5` starts `00d7353`), and
with `iface='eth0'` it deletes `res_neutron_eth0_vip`. -/
theorem hacluster_C7_witness :
    remove_vip RelState.empty "neutron" "10.0.0.5" none =
      delete_resource RelState.empty "res_neutron_00d7353_vip" ∧
    "res_neutron_00d7353_vip" ∈
      ((remove_vip RelState.empty "neutron" "10.0.0.5" none).resources.getD
          CRM.empty).delete_resources ∧
    remove_vip RelState.empty "neutron" "10.0.0.5" (some "eth0") =
      delete_resource RelState.empty "res_neutron_eth0_vip" :=
  hacluster_C7 RelState.empty "neutron" "10.0.0.5" "eth0" (by decide)

/-! ## Claim C9: `bind_resources` defaults -/

/-- Calling `bind_on` never touches the cache entry of the `manage_resources` topic. -/
theorem bind_on_cache_other (st : RelState) (iface : Option String)
    (mp : Option Int) :
    lookupKV (bind_on st iface mp).cache "hacluster-manage_resources" =
      lookupKV st.cache "hacluster-manage_resources" := by
  unfold bind_on
  by_cases he : bind_on_payload iface mp = []
  · simp [he]
  · cases hc : lookupKV st.cache "hacluster-bind_on" with
    | none =>
      simp [he, data_changed, hc, writeBoth]
      exact lookupKV_setKV_ne _ _ _ _ (by decide)
    | some q =>
      by_cases hq : payloadEq q (bind_on_payload iface mp) = true
      · simp [he, data_changed, hc, hq]
      · simp [he, data_changed, hc, hq, writeBoth]
        exact lookupKV_setKV_ne _ _ _ _ (by decide)

/-- C9: with `mcastport` unspecified, `bind_resources` behaves as with port
4440; the `bind_on` payload then carries `corosync_mcastport = 4440`; and when
no `resources` mapping is persisted locally, `bind_resources` reduces to
`bind_on` alone — in particular the `manage_resources` topic cache is
untouched. -/
theorem hacluster_C9 (st : RelState) (iface : Option String) (mp : Option Int) :
    bind_resources st iface none = bind_resources st iface (some 4440) ∧
    lookupKV (bind_on_payload iface (some 4440)) "corosync_mcastport" =
      some (RVal.num 4440) ∧
    (st.resources = none →
       bind_resources st iface mp =
         bind_on st iface (some (match mp with | none => 4440 | some p => p)) ∧
       lookupKV (bind_resources st iface mp).cache "hacluster-manage_resources" =
         lookupKV st.cache "hacluster-manage_resources") := by
  refine ⟨rfl, ?_, ?_⟩
  · cases iface with
    | none => simp [bind_on_payload, lookupKV]
    | some i =>
      by_cases hi : i = "" <;> simp [bind_on_payload, lookupKV, hi]
  · intro h
    constructor
    · simp [bind_resources, h]
    · have hb : bind_resources st iface mp =
          bind_on st iface (some (match mp with | none => 4440 | some p => p)) := by
        simp [bind_resources, h]
      rw [hb]
      exact bind_on_cache_other st iface _

/-- Witness for C9 on the empty state. -/
theorem hacluster_C9_witness :
    bind_resources RelState.empty none none =
      bind_resources RelState.empty none (some 4440) ∧
    lookupKV (bind_on_payload none (some 4440)) "corosync_mcastport" =
      some (RVal.num 4440) ∧
    (bind_resources RelState.empty none none =
       bind_on RelState.empty none (some 4440) ∧
     lookupKV (bind_resources RelState.empty none none).cache
         "hacluster-manage_resources" =
       lookupKV RelState.empty.cache "hacluster-manage_resources") :=
  ⟨(hacluster_C9 RelState.empty none none).1,
   (hacluster_C9 RelState.empty none none).2.1,
   (hacluster_C9 RelState.empty none none).2.2 rfl⟩
